import Mathlib

/-!
# Shallow embedding of `jprofile` (`src/jprofile/core.py`)

The repository profiles a pandas `DataFrame`: for each column it determines a
kind (`numeric`, `boolean`, `string`, `datetime`) with `_determine_type` and
dispatches to one of four summarizers (`_analyze_numeric`, `_analyze_boolean`,
`_analyze_string`, `_analyze_datetime`), accumulating a mapping from column
name to summary record.

Embedding conventions:
* A pandas `Series` is a dtype-tagged list of optional cells; `none` is the
  null marker (`NaN`/`NaT`/`None`).  Floating-point numbers are embedded as
  rationals `ℚ`; datetimes and timedeltas as integers `ℤ` (a timestamp or a
  duration measured in fixed units); object cells by their `str()` rendering.
* `Series.dropna` is `List.filterMap id`; `Series.isna().sum()` counts `none`
  cells; `nunique` is the length of `List.dedup` of the non-null values.
* pandas `quantile`/`median` use linear interpolation between order
  statistics; `quantileQ` implements that rule over `ℚ`.
* `Series.std`/`Series.var` use the sample (`ddof = 1`) convention and return
  `NaN` for a single value; `NaN` is not a rational, so those fields carry an
  explicit `absent`/`nan`/value status.  The finite value of `std` is the
  square root of the sample variance, which is irrational in general; the
  embedding records its status and carries the exact value in `variance`.
-/

/-- `series.dropna()`: the non-null cells, in order. -/
def nonNulls {α : Type} (vals : List (Option α)) : List α :=
  vals.filterMap id

/-- `series.isna().sum()`: the number of null cells. -/
def nullCountL {α : Type} (vals : List (Option α)) : ℕ :=
  (vals.filter Option.isNone).length

/-- Floor of a nonnegative rational as a natural number
(`q.num.toNat / q.den`); used to embed the index arithmetic of pandas'
linear-interpolation quantile. -/
def ratFloorNat (q : ℚ) : ℕ :=
  q.num.toNat / q.den

/-- The linear-interpolation step shared by pandas quantiles: on a sorted
list `s` and fractional position `h`, return `s_i + g · (s_j - s_i)` with
`i = ⌊h⌋`, `g = h - i` and `j = min (i+1) (len-1)`. -/
def interpSorted (s : List ℚ) (h : ℚ) : ℚ :=
  let i : ℕ := ratFloorNat h
  let g : ℚ := h - (i : ℚ)
  let lo := s.getD i 0
  let hi := s.getD (min (i + 1) (s.length - 1)) 0
  lo + g * (hi - lo)

/-- pandas `Series.quantile(p)` (and `median` at `p = 1/2`) with the default
`interpolation='linear'`: interpolate at position `p·(n-1)` of the sorted
values; `None` (here `none`) on an empty input. -/
def quantileQ (xs : List ℚ) (p : ℚ) : Option ℚ :=
  let s := List.insertionSort (fun a b : ℚ => a ≤ b) xs
  if s.length = 0 then none
  else some (interpSorted s (p * ((s.length : ℚ) - 1)))

/-- pandas `Series.var(ddof=1)` for at least two values:
`Σ (x - mean)² / (n - 1)`. -/
def sampleVar (xs : List ℚ) : ℚ :=
  let m := xs.sum / (xs.length : ℚ)
  (xs.map (fun x => (x - m) ^ 2)).sum / ((xs.length : ℚ) - 1)

/-- The distinct elements of a list in order of first occurrence (the key
order produced by pandas' hash-table based `value_counts`). -/
def uniqInOrder {α : Type} [DecidableEq α] : List α → List α
  | [] => []
  | x :: xs => x :: uniqInOrder (xs.filter (fun y => y ≠ x))
termination_by l => l.length
decreasing_by
  simp only [List.length_cons, Nat.lt_succ_iff]
  exact List.length_filter_le _ _

/-- A pandas `Series`: a storage dtype together with the column's cells.
`boolean` covers pandas' (nullable) boolean dtypes; `object` cells are
represented by their `str()` rendering, which is all the profiler ever
observes of them. -/
inductive Series where
  | numeric (vals : List (Option ℚ))
  | boolean (vals : List (Option Bool))
  | datetime (vals : List (Option ℤ))
  | timedelta (vals : List (Option ℤ))
  | object (vals : List (Option String))

/-- `len(series)`. -/
def Series.length : Series → ℕ
  | .numeric vals => vals.length
  | .boolean vals => vals.length
  | .datetime vals => vals.length
  | .timedelta vals => vals.length
  | .object vals => vals.length

/-- `series.isna().sum()`. -/
def Series.nullCount : Series → ℕ
  | .numeric vals => nullCountL vals
  | .boolean vals => nullCountL vals
  | .datetime vals => nullCountL vals
  | .timedelta vals => nullCountL vals
  | .object vals => nullCountL vals

/-- `len(series.dropna())`. -/
def Series.nonNullCount : Series → ℕ
  | .numeric vals => (nonNulls vals).length
  | .boolean vals => (nonNulls vals).length
  | .datetime vals => (nonNulls vals).length
  | .timedelta vals => (nonNulls vals).length
  | .object vals => (nonNulls vals).length

/-- `pd.api.types.is_numeric_dtype(series)`: true for numeric storage.
(pandas also counts plain `bool` storage as numeric; classification and the
boolean summarizer coincide either way on boolean columns — the `{0,1}` test
accepts `{True, False}` and `astype(bool)` is the identity — so the embedding
keeps the dtypes disjoint.) -/
def Series.isNumericDtype : Series → Bool
  | .numeric _ => true
  | _ => false

/-- `pd.api.types.is_bool_dtype(series)`: true for boolean storage. -/
def Series.isBoolDtype : Series → Bool
  | .boolean _ => true
  | _ => false

/-- `pd.api.types.is_datetime64_dtype(series)`: true exactly for `datetime64`
storage — in particular it is `False` for `timedelta64` columns. -/
def Series.isDatetime64Dtype : Series → Bool
  | .datetime _ => true
  | _ => false

/-- Whether the storage is `timedelta64`; for such a column every non-null
cell is a `pd.Timedelta`, so this is what
`isinstance(non_null.iloc[0], pd.Timedelta)` observes. -/
def Series.isTimedeltaDtype : Series → Bool
  | .timedelta _ => true
  | _ => false

/-- `set(series.dropna().unique()).issubset({0, 1, True, False})` — the
boolean-flag test of `_determine_type`.  In Python `{0, 1, True, False}`
equals `{0, 1}` because `True == 1` and `False == 0`.  The test is only
evaluated under the `is_numeric_dtype` guard, hence only the numeric case
matters; values of other dtypes never compare equal to the Python ints. -/
def Series.uniqueSubset01 : Series → Bool
  | .numeric vals => ((nonNulls vals).dedup).all (fun q => decide (q = 0 ∨ q = 1))
  | .boolean _ => true
  | _ => false

/-- The raw cells of a numeric column (`[]` for other dtypes; the numeric
summarizer is only ever dispatched to numeric-dtype columns). -/
def Series.numericCells : Series → List (Option ℚ)
  | .numeric vals => vals
  | _ => []

/-- `series.dropna()` of a numeric column. -/
def Series.ratNonNulls (s : Series) : List ℚ :=
  nonNulls s.numericCells

/-- The non-null cells as booleans, after `_analyze_boolean`'s
`non_null.astype(bool)` coercion for numeric dtype (`0 → False`, any other
number `→ True`).  `[]` for dtypes the boolean summarizer never receives. -/
def Series.boolNonNulls : Series → List Bool
  | .numeric vals => (nonNulls vals).map (fun q => decide (q ≠ 0))
  | .boolean vals => nonNulls vals
  | _ => []

/-- The non-null cells of a datetime/timedelta column as integers (`[]` for
other dtypes; the datetime summarizer is only dispatched to `datetime64`). -/
def Series.intNonNulls : Series → List ℤ
  | .datetime vals => nonNulls vals
  | .timedelta vals => nonNulls vals
  | _ => []

/-- `series.dropna().astype(str)`: the non-null cells rendered as text.
The renderings of non-object scalars are modelled canonically (decimal for
numbers, `True`/`False` for booleans); none of the proved statistics depend
on the concrete rendering. -/
def Series.stringifiedNonNulls : Series → List String
  | .numeric vals => (nonNulls vals).map toString
  | .boolean vals => (nonNulls vals).map (fun b => if b then "True" else "False")
  | .datetime vals => (nonNulls vals).map toString
  | .timedelta vals => (nonNulls vals).map toString
  | .object vals => nonNulls vals

/-- `JProfile._determine_type`, line for line:
empty or all-null → `"string"`; numeric dtype → `"boolean"` if the distinct
non-null values lie in `{0, 1}` else `"numeric"`; then boolean dtype →
`"boolean"`; then `datetime64` dtype → `"datetime"`; else `"string"`. -/
def determineType (s : Series) : String :=
  if s.length = 0 ∨ s.nonNullCount = 0 then "string"
  else if s.isNumericDtype then
    if s.uniqueSubset01 then "boolean" else "numeric"
  else if s.isBoolDtype then "boolean"
  else if s.isDatetime64Dtype then "datetime"
  else "string"

/-- Status of a statistic whose finite value the embedding does not carry:
`Series.std` is the square root of the sample variance, irrational in
general.  `absent` is Python `None`, `nan` is IEEE `NaN` (sample statistics
of a single value), `finite` an actual number. -/
inductive StdVal where
  | absent
  | nan
  | finite
deriving DecidableEq

/-- Status-and-value of `Series.var(ddof=1)`: Python `None`, IEEE `NaN`, or
a rational value. -/
inductive NumVal where
  | absent
  | nan
  | val (q : ℚ)
deriving DecidableEq

/-- The record built by `_analyze_numeric` (the `'type': 'numeric'` tag is
carried by the `SummaryRecord` constructor). -/
structure NumericStats where
  count : ℕ
  null_count : ℕ
  null_percentage : ℚ
  unique_count : ℕ
  duplicate_count : ℕ
  min : Option ℚ
  max : Option ℚ
  mean : Option ℚ
  median : Option ℚ
  std : StdVal
  variance : NumVal
  q1 : Option ℚ
  q3 : Option ℚ
  iqr : Option ℚ
  sum : Option ℚ
  range : Option ℚ
deriving DecidableEq

/-- `JProfile._analyze_numeric`. -/
def analyzeNumeric (s : Series) : NumericStats :=
  let total_count := s.length
  let null_count := s.nullCount
  let non_null := s.ratNonNulls
  let unique_count := non_null.dedup.length
  { count := non_null.length
    null_count := null_count
    null_percentage := if 0 < total_count then (null_count : ℚ) / (total_count : ℚ) * 100 else 0
    unique_count := unique_count
    duplicate_count := non_null.length - unique_count
    min := non_null.min?
    max := non_null.max?
    mean := if non_null.isEmpty then none else some (non_null.sum / (non_null.length : ℚ))
    median := quantileQ non_null (1 / 2)
    std := if non_null.isEmpty then .absent
           else if non_null.length = 1 then .nan else .finite
    variance := if non_null.isEmpty then .absent
                else if non_null.length = 1 then .nan else .val (sampleVar non_null)
    q1 := quantileQ non_null (1 / 4)
    q3 := quantileQ non_null (3 / 4)
    iqr := match quantileQ non_null (3 / 4), quantileQ non_null (1 / 4) with
           | some a, some b => some (a - b)
           | _, _ => none
    sum := if non_null.isEmpty then none else some non_null.sum
    range := if 1 < non_null.length then
               match non_null.max?, non_null.min? with
               | some mx, some mn => some (mx - mn)
               | _, _ => none
             else none }

/-- The record built by `_analyze_boolean`. -/
structure BooleanStats where
  count : ℕ
  null_count : ℕ
  null_percentage : ℚ
  unique_count : ℕ
  duplicate_count : ℕ
  true_count : ℕ
  false_count : ℕ
  true_percentage : ℚ
  false_percentage : ℚ
deriving DecidableEq

/-- `JProfile._analyze_boolean`.  `non_null.sum()` of a boolean series counts
the `True` cells; the `astype(bool)` coercion for numeric dtype is inside
`Series.boolNonNulls`. -/
def analyzeBoolean (s : Series) : BooleanStats :=
  let total_count := s.length
  let null_count := s.nullCount
  let non_null := s.boolNonNulls
  let true_count := non_null.count true
  let unique_count := non_null.dedup.length
  { count := non_null.length
    null_count := null_count
    null_percentage := if 0 < total_count then (null_count : ℚ) / (total_count : ℚ) * 100 else 0
    unique_count := unique_count
    duplicate_count := non_null.length - unique_count
    true_count := true_count
    false_count := non_null.length - true_count
    true_percentage := if 0 < non_null.length then
        (true_count : ℚ) / (non_null.length : ℚ) * 100 else 0
    false_percentage := if 0 < non_null.length then
        ((non_null.length - true_count : ℕ) : ℚ) / (non_null.length : ℚ) * 100 else 0 }

/-- One row of pandas `value_counts` bookkeeping: the first-occurrence index
of a distinct value, the value, and its number of occurrences. -/
def valueCountRows (xs : List String) : List (ℕ × String × ℕ) :=
  (uniqInOrder xs).enum.map (fun p => (p.1, p.2, xs.count p.2))

/-- The order `value_counts` sorts by: descending count, ties by
first-occurrence index (pandas sorts the hash-table output, which is in
first-occurrence order, with a stable sort on the counts). -/
def vcRel (a b : ℕ × String × ℕ) : Prop :=
  b.2.2 < a.2.2 ∨ (a.2.2 = b.2.2 ∧ a.1 ≤ b.1)

instance : DecidableRel vcRel := fun a b => by
  unfold vcRel; infer_instance

instance : IsTotal (ℕ × String × ℕ) vcRel where
  total a b := by
    unfold vcRel
    rcases lt_trichotomy a.2.2 b.2.2 with h | h | h
    · exact Or.inr (Or.inl h)
    · rcases Nat.le_total a.1 b.1 with h' | h'
      · exact Or.inl (Or.inr ⟨h, h'⟩)
      · exact Or.inr (Or.inr ⟨h.symm, h'⟩)
    · exact Or.inl (Or.inl h)

instance : IsTrans (ℕ × String × ℕ) vcRel where
  trans a b c hab hbc := by
    unfold vcRel at *
    rcases hab with h1 | ⟨e1, l1⟩
    · rcases hbc with h2 | ⟨e2, l2⟩
      · exact Or.inl (h2.trans h1)
      · exact Or.inl (e2 ▸ h1)
    · rcases hbc with h2 | ⟨e2, l2⟩
      · exact Or.inl (e1 ▸ h2)
      · exact Or.inr ⟨e1.trans e2, l1.trans l2⟩

/-- `non_null.value_counts()`: rows sorted by `vcRel`. -/
def sortedValueCounts (xs : List String) : List (ℕ × String × ℕ) :=
  List.insertionSort vcRel (valueCountRows xs)

/-- `non_null.value_counts().head(5).to_dict()` (an insertion-ordered dict,
modelled as an association list). -/
def topFrequencies (xs : List String) : List (String × ℕ) :=
  ((sortedValueCounts xs).take 5).map (fun e => (e.2.1, e.2.2))

/-- The record built by `_analyze_string`. -/
structure StringStats where
  count : ℕ
  null_count : ℕ
  null_percentage : ℚ
  empty_count : ℕ
  unique_count : ℕ
  duplicate_count : ℕ
  min_length : Option ℕ
  max_length : Option ℕ
  mean_length : Option ℚ
  top_frequencies : List (String × ℕ)
deriving DecidableEq

/-- `JProfile._analyze_string`.  After `astype(str)` every cell is a string,
so the guarded length computation (`try`/`except` in the source) cannot
fail; the `except` fallback to `None` is therefore dead and the lengths are
absent exactly when there are no non-null values. -/
def analyzeString (s : Series) : StringStats :=
  let total_count := s.length
  let null_count := s.nullCount
  let non_null := s.stringifiedNonNulls
  let lengths := non_null.map String.length
  let unique_count := non_null.dedup.length
  { count := non_null.length
    null_count := null_count
    null_percentage := if 0 < total_count then (null_count : ℚ) / (total_count : ℚ) * 100 else 0
    empty_count := non_null.count ""
    unique_count := unique_count
    duplicate_count := non_null.length - unique_count
    min_length := if non_null.isEmpty then none else lengths.min?
    max_length := if non_null.isEmpty then none else lengths.max?
    mean_length := if non_null.isEmpty then none
                   else some ((lengths.sum : ℚ) / (non_null.length : ℚ))
    top_frequencies := if non_null.isEmpty then [] else topFrequencies non_null }

/-- The record built by `_analyze_datetime`.  `mean`/`median` are the two
keys added only for timedelta columns (`none` = key absent); they are exact
rational durations (pandas interpolates medians between order statistics). -/
structure DatetimeStats where
  count : ℕ
  null_count : ℕ
  null_percentage : ℚ
  unique_count : ℕ
  duplicate_count : ℕ
  min : Option ℤ
  max : Option ℤ
  range : Option ℤ
  mean : Option ℚ
  median : Option ℚ
deriving DecidableEq

/-- `JProfile._analyze_datetime`. -/
def analyzeDatetime (s : Series) : DatetimeStats :=
  let total_count := s.length
  let null_count := s.nullCount
  let non_null := s.intNonNulls
  let unique_count := non_null.dedup.length
  { count := non_null.length
    null_count := null_count
    null_percentage := if 0 < total_count then (null_count : ℚ) / (total_count : ℚ) * 100 else 0
    unique_count := unique_count
    duplicate_count := non_null.length - unique_count
    min := non_null.min?
    max := non_null.max?
    range := if 1 < non_null.length then
               match non_null.max?, non_null.min? with
               | some mx, some mn => some (mx - mn)
               | _, _ => none
             else none
    mean := if ¬non_null.isEmpty ∧ s.isTimedeltaDtype then
              some (((non_null.sum : ℚ)) / (non_null.length : ℚ)) else none
    median := if ¬non_null.isEmpty ∧ s.isTimedeltaDtype then
                quantileQ (non_null.map (fun z => (z : ℚ))) (1 / 2) else none }

/-- A kind-tagged summary record (the `'type'` entry of the Python dict is
the constructor). -/
inductive SummaryRecord where
  | numeric (r : NumericStats)
  | boolean (r : BooleanStats)
  | string (r : StringStats)
  | datetime (r : DatetimeStats)
deriving DecidableEq

/-- The `count` field shared by all four kinds. -/
def SummaryRecord.count : SummaryRecord → ℕ
  | .numeric r => r.count
  | .boolean r => r.count
  | .string r => r.count
  | .datetime r => r.count

/-- The `null_count` field shared by all four kinds. -/
def SummaryRecord.nullCount : SummaryRecord → ℕ
  | .numeric r => r.null_count
  | .boolean r => r.null_count
  | .string r => r.null_count
  | .datetime r => r.null_count

/-- The `null_percentage` field shared by all four kinds. -/
def SummaryRecord.nullPercentage : SummaryRecord → ℚ
  | .numeric r => r.null_percentage
  | .boolean r => r.null_percentage
  | .string r => r.null_percentage
  | .datetime r => r.null_percentage

/-- The `unique_count` field shared by all four kinds. -/
def SummaryRecord.uniqueCount : SummaryRecord → ℕ
  | .numeric r => r.unique_count
  | .boolean r => r.unique_count
  | .string r => r.unique_count
  | .datetime r => r.unique_count

/-- The `duplicate_count` field shared by all four kinds. -/
def SummaryRecord.duplicateCount : SummaryRecord → ℕ
  | .numeric r => r.duplicate_count
  | .boolean r => r.duplicate_count
  | .string r => r.duplicate_count
  | .datetime r => r.duplicate_count

/-- One iteration of `JProfile._analyze`'s loop body: classify, then
dispatch on the type string.  The `if/elif` chain has no `else`, so a type
string outside the four known ones would leave the column without a record —
modelled by the `none` fall-through. -/
def analyzeColumn (s : Series) : Option SummaryRecord :=
  let t := determineType s
  if t = "numeric" then some (.numeric (analyzeNumeric s))
  else if t = "boolean" then some (.boolean (analyzeBoolean s))
  else if t = "string" then some (.string (analyzeString s))
  else if t = "datetime" then some (.datetime (analyzeDatetime s))
  else none

/-- `JProfile._analyze`: the loop over `df.columns`, building
`self.results` (an insertion-ordered dict, modelled as an association
list). -/
def profileResults (df : List (String × Series)) : List (String × SummaryRecord) :=
  df.filterMap (fun c => (analyzeColumn c.2).map (fun r => (c.1, r)))

/-- The `JProfile` object: the constructor stores the frame and immediately
runs `_analyze`, caching `results`. -/
structure JProfile where
  df : List (String × Series)
  results : List (String × SummaryRecord)

/-- `JProfile.__init__`. -/
def JProfile.init (df : List (String × Series)) : JProfile :=
  { df := df, results := profileResults df }

/-- `JProfile.get_profile`: returns the cached results mapping. -/
def JProfile.getProfile (p : JProfile) : List (String × SummaryRecord) :=
  p.results

/-! ## Basic bookkeeping lemmas -/

instance : Std.Antisymm (fun a b : ℚ => a ≤ b) :=
  ⟨fun h h' => le_antisymm h h'⟩

lemma minQ_spec {l : List ℚ} {a : ℚ} (h : l.min? = some a) :
    a ∈ l ∧ ∀ b ∈ l, a ≤ b := by
  rw [List.min?_eq_some_iff (fun a => le_refl a) (fun a b => min_choice a b)
    (fun a b c => le_min_iff)] at h
  exact h

lemma maxQ_spec {l : List ℚ} {a : ℚ} (h : l.max? = some a) :
    a ∈ l ∧ ∀ b ∈ l, b ≤ a := by
  rw [List.max?_eq_some_iff (fun a => le_refl a) (fun a b => max_choice a b)
    (fun a b c => max_le_iff)] at h
  exact h

lemma minQ_isSome {l : List ℚ} (h : l ≠ []) : ∃ a, l.min? = some a := by
  cases l with
  | nil => simp at h
  | cons x xs => exact ⟨_, List.min?_cons⟩

lemma maxQ_isSome {l : List ℚ} (h : l ≠ []) : ∃ a, l.max? = some a := by
  cases l with
  | nil => simp at h
  | cons x xs => exact ⟨_, List.max?_cons⟩

lemma nullCountL_cons_none {α : Type} (xs : List (Option α)) :
    nullCountL (none :: xs) = nullCountL xs + 1 := by
  simp [nullCountL, List.filter_cons]

lemma nullCountL_cons_some {α : Type} (a : α) (xs : List (Option α)) :
    nullCountL (some a :: xs) = nullCountL xs := by
  simp [nullCountL, List.filter_cons]

lemma nonNulls_cons_none {α : Type} (xs : List (Option α)) :
    nonNulls (none :: xs) = nonNulls xs := by
  simp [nonNulls]

lemma nonNulls_cons_some {α : Type} (a : α) (xs : List (Option α)) :
    nonNulls (some a :: xs) = a :: nonNulls xs := by
  simp [nonNulls]

lemma nullCountL_add_nonNulls {α : Type} (vals : List (Option α)) :
    nullCountL vals + (nonNulls vals).length = vals.length := by
  induction vals with
  | nil => rfl
  | cons x xs ih =>
    cases x with
    | none =>
      rw [nullCountL_cons_none, nonNulls_cons_none, List.length_cons]
      omega
    | some a =>
      rw [nullCountL_cons_some, nonNulls_cons_some, List.length_cons,
        List.length_cons]
      omega

lemma series_null_add_nonNull (s : Series) :
    s.nullCount + s.nonNullCount = s.length := by
  cases s <;> exact nullCountL_add_nonNulls _

lemma dedup_length_le {α : Type} [DecidableEq α] (l : List α) :
    l.dedup.length ≤ l.length :=
  (List.dedup_sublist l).length_le

/-! ## Floor arithmetic for the quantile index -/

lemma ratFloorNat_le {q : ℚ} (hq : 0 ≤ q) : (ratFloorNat q : ℚ) ≤ q := by
  have hn : (0 : ℤ) ≤ q.num := Rat.num_nonneg.mpr hq
  have hd : (0 : ℚ) < (q.den : ℚ) := by exact_mod_cast q.pos
  have h1 : ratFloorNat q * q.den ≤ q.num.toNat := Nat.div_mul_le_self _ _
  have h2 : (ratFloorNat q : ℚ) * (q.den : ℚ) ≤ (q.num : ℚ) := by
    have h3 := (Nat.cast_le (α := ℚ)).mpr h1
    push_cast at h3
    have h4 : ((q.num.toNat : ℚ)) = (q.num : ℚ) := by
      exact_mod_cast Int.toNat_of_nonneg hn
    rwa [h4] at h3
  calc (ratFloorNat q : ℚ) ≤ (q.num : ℚ) / (q.den : ℚ) := (le_div_iff₀ hd).mpr h2
  _ = q := Rat.num_div_den q

lemma lt_ratFloorNat_add_one {q : ℚ} (hq : 0 ≤ q) :
    q < (ratFloorNat q : ℚ) + 1 := by
  have hn : (0 : ℤ) ≤ q.num := Rat.num_nonneg.mpr hq
  have hdn : 0 < q.den := q.pos
  have hd : (0 : ℚ) < (q.den : ℚ) := by exact_mod_cast hdn
  have h1 : q.num.toNat < (ratFloorNat q + 1) * q.den := by
    have hmod := Nat.div_add_mod q.num.toNat q.den
    have hlt := Nat.mod_lt q.num.toNat hdn
    calc q.num.toNat = q.den * (q.num.toNat / q.den) + q.num.toNat % q.den := hmod.symm
    _ < q.den * (q.num.toNat / q.den) + q.den := by omega
    _ = (ratFloorNat q + 1) * q.den := by unfold ratFloorNat; ring
  have h2 : (q.num : ℚ) < ((ratFloorNat q : ℚ) + 1) * (q.den : ℚ) := by
    have h3 := (Nat.cast_lt (α := ℚ)).mpr h1
    push_cast at h3
    have h4 : ((q.num.toNat : ℚ)) = (q.num : ℚ) := by
      exact_mod_cast Int.toNat_of_nonneg hn
    rwa [h4] at h3
  calc q = (q.num : ℚ) / (q.den : ℚ) := (Rat.num_div_den q).symm
  _ < (ratFloorNat q : ℚ) + 1 := (div_lt_iff₀ hd).mpr h2

lemma ratFloorNat_mono {a b : ℚ} (ha : 0 ≤ a) (hab : a ≤ b) :
    ratFloorNat a ≤ ratFloorNat b := by
  by_contra hcon
  push_neg at hcon
  have hb : 0 ≤ b := ha.trans hab
  have h1 : (ratFloorNat b : ℚ) + 1 ≤ (ratFloorNat a : ℚ) := by
    exact_mod_cast Nat.succ_le_of_lt hcon
  have h2 := lt_ratFloorNat_add_one hb
  have h3 := ratFloorNat_le ha
  linarith

lemma ratFloorNat_le_of_le {q : ℚ} {m : ℕ} (hq : 0 ≤ q) (h : q ≤ (m : ℚ)) :
    ratFloorNat q ≤ m := by
  have h1 : (ratFloorNat q : ℚ) ≤ (m : ℚ) := (ratFloorNat_le hq).trans h
  exact_mod_cast h1

/-! ## Order lemmas for the interpolated quantile -/

lemma sorted_getD_mono {s : List ℚ} (hs : List.Sorted (fun a b : ℚ => a ≤ b) s)
    {a b : ℕ} (hab : a ≤ b) (hb : b < s.length) :
    s.getD a 0 ≤ s.getD b 0 := by
  have ha : a < s.length := lt_of_le_of_lt hab hb
  rw [List.getD_eq_getElem s 0 ha, List.getD_eq_getElem s 0 hb]
  rcases eq_or_lt_of_le hab with rfl | hlt
  · exact le_refl _
  · have h := List.pairwise_iff_get.mp hs ⟨a, ha⟩ ⟨b, hb⟩ hlt
    simpa [List.get_eq_getElem] using h

lemma interp_aux {s : List ℚ} (hs : List.Sorted (fun a b : ℚ => a ≤ b) s)
    (hne : s ≠ []) {h : ℚ} (hh0 : 0 ≤ h) (hh1 : h ≤ (s.length : ℚ) - 1) :
    ratFloorNat h < s.length ∧
    min (ratFloorNat h + 1) (s.length - 1) < s.length ∧
    s.getD (ratFloorNat h) 0 ≤ interpSorted s h ∧
    interpSorted s h ≤ s.getD (min (ratFloorNat h + 1) (s.length - 1)) 0 := by
  have hn : 0 < s.length := List.length_pos.mpr hne
  have hcast : ((s.length - 1 : ℕ) : ℚ) = (s.length : ℚ) - 1 := by
    exact_mod_cast Nat.cast_sub hn
  have hi_le : ratFloorNat h ≤ s.length - 1 :=
    ratFloorNat_le_of_le hh0 (by rw [hcast]; exact hh1)
  have hiltn : ratFloorNat h < s.length :=
    lt_of_le_of_lt hi_le (Nat.sub_lt hn one_pos)
  have hjltn : min (ratFloorNat h + 1) (s.length - 1) < s.length :=
    lt_of_le_of_lt (min_le_right _ _) (Nat.sub_lt hn one_pos)
  have hij : ratFloorNat h ≤ min (ratFloorNat h + 1) (s.length - 1) :=
    le_min (Nat.le_succ _) hi_le
  have hlohi : s.getD (ratFloorNat h) 0 ≤
      s.getD (min (ratFloorNat h + 1) (s.length - 1)) 0 :=
    sorted_getD_mono hs hij hjltn
  have hg0 : 0 ≤ h - (ratFloorNat h : ℚ) := sub_nonneg.mpr (ratFloorNat_le hh0)
  have hg1 : h - (ratFloorNat h : ℚ) ≤ 1 := by
    have := lt_ratFloorNat_add_one hh0
    linarith
  refine ⟨hiltn, hjltn, ?_, ?_⟩
  · simp only [interpSorted]
    nlinarith [mul_nonneg hg0 (sub_nonneg.mpr hlohi)]
  · simp only [interpSorted]
    nlinarith [mul_nonneg (sub_nonneg.mpr hg1) (sub_nonneg.mpr hlohi)]

lemma interp_mono_aux {s : List ℚ} (hs : List.Sorted (fun a b : ℚ => a ≤ b) s)
    (hne : s ≠ []) {h1 h2 : ℚ} (h10 : 0 ≤ h1) (h12 : h1 ≤ h2)
    (h2n : h2 ≤ (s.length : ℚ) - 1) :
    interpSorted s h1 ≤ interpSorted s h2 := by
  have h20 : 0 ≤ h2 := h10.trans h12
  have h1n : h1 ≤ (s.length : ℚ) - 1 := h12.trans h2n
  obtain ⟨hi1, hj1, hlo1, hhi1⟩ := interp_aux hs hne h10 h1n
  obtain ⟨hi2, hj2, hlo2, hhi2⟩ := interp_aux hs hne h20 h2n
  rcases Nat.eq_or_lt_of_le (ratFloorNat_mono h10 h12) with heq | hlt
  · have hlohi : s.getD (ratFloorNat h1) 0 ≤
        s.getD (min (ratFloorNat h1 + 1) (s.length - 1)) 0 := hlo1.trans hhi1
    simp only [interpSorted, ← heq]
    nlinarith [mul_le_mul_of_nonneg_right (sub_le_sub_right h12 ((ratFloorNat h1 : ℚ)))
      (sub_nonneg.mpr hlohi)]
  · have hj1i2 : min (ratFloorNat h1 + 1) (s.length - 1) ≤ ratFloorNat h2 :=
      le_trans (min_le_left _ _) hlt
    exact le_trans hhi1 (le_trans (sorted_getD_mono hs hj1i2 hi2) hlo2)

lemma quantileQ_eq {xs : List ℚ} (hne : xs ≠ []) (p : ℚ) :
    quantileQ xs p =
      some (interpSorted (List.insertionSort (fun a b : ℚ => a ≤ b) xs)
        (p * (((List.insertionSort (fun a b : ℚ => a ≤ b) xs).length : ℚ) - 1))) := by
  have hlen : (List.insertionSort (fun a b : ℚ => a ≤ b) xs).length = xs.length :=
    (List.perm_insertionSort _ xs).length_eq
  simp only [quantileQ]
  rw [if_neg]
  rw [hlen]
  exact fun h => hne (List.length_eq_zero.mp h)

lemma quantileQ_bounds {xs : List ℚ} (hne : xs ≠ []) {p : ℚ}
    (hp0 : 0 ≤ p) (hp1 : p ≤ 1) :
    ∃ q, quantileQ xs p = some q ∧ ∃ lo ∈ xs, ∃ hi ∈ xs, lo ≤ q ∧ q ≤ hi := by
  have hs := List.sorted_insertionSort (fun a b : ℚ => a ≤ b) xs
  have hperm := List.perm_insertionSort (fun a b : ℚ => a ≤ b) xs
  have hlen : (List.insertionSort (fun a b : ℚ => a ≤ b) xs).length = xs.length :=
    hperm.length_eq
  have hsne : List.insertionSort (fun a b : ℚ => a ≤ b) xs ≠ [] := by
    intro h
    exact hne (by simpa [h] using hlen.symm)
  have hn1 : (1 : ℚ) ≤ ((List.insertionSort (fun a b : ℚ => a ≤ b) xs).length : ℚ) := by
    have : 0 < (List.insertionSort (fun a b : ℚ => a ≤ b) xs).length :=
      List.length_pos.mpr hsne
    exact_mod_cast this
  have hh0 : 0 ≤ p * (((List.insertionSort (fun a b : ℚ => a ≤ b) xs).length : ℚ) - 1) :=
    mul_nonneg hp0 (by linarith)
  have hh1 : p * (((List.insertionSort (fun a b : ℚ => a ≤ b) xs).length : ℚ) - 1) ≤
      ((List.insertionSort (fun a b : ℚ => a ≤ b) xs).length : ℚ) - 1 :=
    mul_le_of_le_one_left (by linarith) hp1
  obtain ⟨hi1, hj1, hlo, hhi⟩ := interp_aux hs hsne hh0 hh1
  refine ⟨_, quantileQ_eq hne p, ?_⟩
  refine ⟨(List.insertionSort (fun a b : ℚ => a ≤ b) xs).getD (ratFloorNat _) 0, ?_,
    (List.insertionSort (fun a b : ℚ => a ≤ b) xs).getD
      (min (ratFloorNat _ + 1) ((List.insertionSort (fun a b : ℚ => a ≤ b) xs).length - 1)) 0, ?_,
    hlo, hhi⟩
  · rw [List.getD_eq_getElem _ 0 hi1]
    exact hperm.mem_iff.mp (List.getElem_mem hi1)
  · rw [List.getD_eq_getElem _ 0 hj1]
    exact hperm.mem_iff.mp (List.getElem_mem hj1)

lemma quantileQ_mono {xs : List ℚ} (hne : xs ≠ []) {p1 p2 : ℚ}
    (hp0 : 0 ≤ p1) (h12 : p1 ≤ p2) (hp1 : p2 ≤ 1) {q1 q2 : ℚ}
    (e1 : quantileQ xs p1 = some q1) (e2 : quantileQ xs p2 = some q2) :
    q1 ≤ q2 := by
  have hs := List.sorted_insertionSort (fun a b : ℚ => a ≤ b) xs
  have hperm := List.perm_insertionSort (fun a b : ℚ => a ≤ b) xs
  have hsne : List.insertionSort (fun a b : ℚ => a ≤ b) xs ≠ [] := by
    intro h
    exact hne (by simpa [h] using hperm.length_eq.symm)
  have hn1 : (1 : ℚ) ≤ ((List.insertionSort (fun a b : ℚ => a ≤ b) xs).length : ℚ) := by
    have : 0 < (List.insertionSort (fun a b : ℚ => a ≤ b) xs).length :=
      List.length_pos.mpr hsne
    exact_mod_cast this
  rw [quantileQ_eq hne p1] at e1
  rw [quantileQ_eq hne p2] at e2
  have hq1 := Option.some.inj e1
  have hq2 := Option.some.inj e2
  rw [← hq1, ← hq2]
  exact interp_mono_aux hs hsne
    (mul_nonneg hp0 (by linarith))
    (mul_le_mul_of_nonneg_right h12 (by linarith))
    (mul_le_of_le_one_left (by linarith) hp1)

/-! ## Classification lemmas -/

lemma determineType_mem (s : Series) :
    determineType s = "numeric" ∨ determineType s = "boolean" ∨
    determineType s = "datetime" ∨ determineType s = "string" := by
  unfold determineType
  repeat' split
  all_goals simp

lemma determineType_numeric_inv {s : Series} (h : determineType s = "numeric") :
    ∃ vals, s = Series.numeric vals := by
  cases s with
  | numeric vals => exact ⟨vals, rfl⟩
  | boolean vals =>
    revert h
    unfold determineType
    simp only [Series.isNumericDtype, Series.isBoolDtype, Series.isDatetime64Dtype]
    split <;> simp
  | datetime vals =>
    revert h
    unfold determineType
    simp only [Series.isNumericDtype, Series.isBoolDtype, Series.isDatetime64Dtype]
    split <;> simp
  | timedelta vals =>
    revert h
    unfold determineType
    simp only [Series.isNumericDtype, Series.isBoolDtype, Series.isDatetime64Dtype]
    split <;> simp
  | object vals =>
    revert h
    unfold determineType
    simp only [Series.isNumericDtype, Series.isBoolDtype, Series.isDatetime64Dtype]
    split <;> simp

lemma determineType_boolean_inv {s : Series} (h : determineType s = "boolean") :
    (∃ vals, s = Series.numeric vals ∧ Series.uniqueSubset01 s = true) ∨
    (∃ vals, s = Series.boolean vals) := by
  cases s with
  | numeric vals =>
    left
    refine ⟨vals, rfl, ?_⟩
    revert h
    unfold determineType
    simp only [Series.isNumericDtype, if_true]
    split
    · simp
    · split
      · simp_all
      · simp
  | boolean vals => exact Or.inr ⟨vals, rfl⟩
  | datetime vals =>
    revert h
    unfold determineType
    simp only [Series.isNumericDtype, Series.isBoolDtype, Series.isDatetime64Dtype]
    split <;> simp
  | timedelta vals =>
    revert h
    unfold determineType
    simp only [Series.isNumericDtype, Series.isBoolDtype, Series.isDatetime64Dtype]
    split <;> simp
  | object vals =>
    revert h
    unfold determineType
    simp only [Series.isNumericDtype, Series.isBoolDtype, Series.isDatetime64Dtype]
    split <;> simp

lemma determineType_datetime_inv {s : Series} (h : determineType s = "datetime") :
    ∃ vals, s = Series.datetime vals := by
  cases s with
  | datetime vals => exact ⟨vals, rfl⟩
  | numeric vals =>
    revert h
    unfold determineType
    simp only [Series.isNumericDtype, if_true]
    split
    · simp
    · split <;> simp
  | boolean vals =>
    revert h
    unfold determineType
    simp only [Series.isNumericDtype, Series.isBoolDtype, Series.isDatetime64Dtype]
    split <;> simp
  | timedelta vals =>
    revert h
    unfold determineType
    simp only [Series.isNumericDtype, Series.isBoolDtype, Series.isDatetime64Dtype]
    split <;> simp
  | object vals =>
    revert h
    unfold determineType
    simp only [Series.isNumericDtype, Series.isBoolDtype, Series.isDatetime64Dtype]
    split <;> simp

/-! ## C1: the classifier implements the specified priority cascade -/

lemma uniqueSubset01_iff (vals : List (Option ℚ)) :
    Series.uniqueSubset01 (.numeric vals) = true ↔
      ∀ q ∈ nonNulls vals, q = 0 ∨ q = 1 := by
  simp [Series.uniqueSubset01, List.all_eq_true, List.mem_dedup]

/-- The classification rule as the specification words it: zero values or
all null → String; numeric storage whose distinct non-null values form a
subset of `{0, 1}` → Boolean, any other numeric storage → Numeric; boolean
storage → Boolean; date/time storage → Datetime; everything else → String. -/
def classifySpec (s : Series) : String :=
  if s.length = 0 ∨ s.nonNullCount = 0 then "string"
  else if s.isNumericDtype ∧ ∀ q ∈ s.ratNonNulls, q = 0 ∨ q = 1 then "boolean"
  else if s.isNumericDtype then "numeric"
  else if s.isBoolDtype then "boolean"
  else if s.isDatetime64Dtype then "datetime"
  else "string"

/-- **C1.** `_determine_type` is a total function into the four kind tags and
decides them exactly in the specified priority order: degenerate (empty or
all-null) columns are String; then numeric-storage columns are Boolean when
their distinct non-null values lie in `{0, 1}` and Numeric otherwise; then
boolean storage is Boolean; then date/time storage is Datetime; every
remaining column is String. -/
theorem classify_matches_spec (s : Series) :
    (determineType s = "numeric" ∨ determineType s = "boolean" ∨
     determineType s = "datetime" ∨ determineType s = "string") ∧
    determineType s = classifySpec s := by
  refine ⟨determineType_mem s, ?_⟩
  cases s with
  | numeric vals =>
    unfold determineType classifySpec
    simp only [Series.isNumericDtype, Series.ratNonNulls, Series.numericCells,
      if_true, true_and]
    split
    · rfl
    · by_cases hP : ∀ q ∈ nonNulls vals, q = 0 ∨ q = 1
      · have h1 : Series.uniqueSubset01 (.numeric vals) = true :=
          (uniqueSubset01_iff vals).mpr hP
        simp only [h1, if_true]
        rw [if_pos hP]
      · have h1 : ¬Series.uniqueSubset01 (.numeric vals) = true :=
          fun hc => hP ((uniqueSubset01_iff vals).mp hc)
        rw [if_neg h1, if_neg hP]
  | boolean vals =>
    unfold determineType classifySpec
    simp [Series.isNumericDtype, Series.isBoolDtype]
  | datetime vals =>
    unfold determineType classifySpec
    simp [Series.isNumericDtype, Series.isBoolDtype, Series.isDatetime64Dtype]
  | timedelta vals =>
    unfold determineType classifySpec
    simp [Series.isNumericDtype, Series.isBoolDtype, Series.isDatetime64Dtype]
  | object vals =>
    unfold determineType classifySpec
    simp [Series.isNumericDtype, Series.isBoolDtype, Series.isDatetime64Dtype]

/-! ## C2: shared count invariants of every summary record -/

lemma strNe_bn : ("boolean" : String) ≠ "numeric" := by decide

lemma strNe_sn : ("string" : String) ≠ "numeric" := by decide

lemma strNe_sb : ("string" : String) ≠ "boolean" := by decide

lemma strNe_dn : ("datetime" : String) ≠ "numeric" := by decide

lemma strNe_db : ("datetime" : String) ≠ "boolean" := by decide

lemma strNe_ds : ("datetime" : String) ≠ "string" := by decide

lemma stringified_length (s : Series) :
    s.stringifiedNonNulls.length = s.nonNullCount := by
  cases s <;> simp [Series.stringifiedNonNulls, Series.nonNullCount]

/-- **C2.** Whatever the column and its kind, the record the engine produces
satisfies `null_count + (non-null count) = N`, the percentage identity
(`0` for an empty column), and `unique_count + duplicate_count = non-null
count` (which the record's `count` field equals). -/
theorem record_count_invariants (s : Series) (r : SummaryRecord)
    (h : analyzeColumn s = some r) :
    r.nullCount + s.nonNullCount = s.length ∧
    r.count = s.nonNullCount ∧
    r.nullPercentage =
      (if 0 < s.length then (s.nullCount : ℚ) / (s.length : ℚ) * 100 else 0) ∧
    r.uniqueCount + r.duplicateCount = r.count := by
  have hadd := series_null_add_nonNull s
  rcases determineType_mem s with ht | ht | ht | ht
  · obtain ⟨vals, rfl⟩ := determineType_numeric_inv ht
    rw [analyzeColumn, ht] at h
    simp only [if_pos rfl] at h
    obtain rfl := (Option.some.inj h).symm
    refine ⟨?_, ?_, rfl, ?_⟩
    · simpa [SummaryRecord.nullCount, analyzeNumeric] using hadd
    · rfl
    · have hd := dedup_length_le (Series.numeric vals).ratNonNulls
      simp only [SummaryRecord.uniqueCount, SummaryRecord.duplicateCount,
        SummaryRecord.count, analyzeNumeric]
      omega
  · obtain hb | hb := determineType_boolean_inv ht
    · obtain ⟨vals, rfl, hsub⟩ := hb
      rw [analyzeColumn, ht] at h
      simp only [if_neg strNe_bn, eq_self_iff_true, if_true] at h
      obtain rfl := (Option.some.inj h).symm
      have hlen : (Series.numeric vals).boolNonNulls.length
          = (Series.numeric vals).nonNullCount := by
        simp [Series.boolNonNulls, Series.nonNullCount]
      refine ⟨?_, ?_, rfl, ?_⟩
      · simp only [SummaryRecord.nullCount, analyzeBoolean]
        rw [← hadd]
      · simpa [SummaryRecord.count, analyzeBoolean] using hlen
      · have hd := dedup_length_le (Series.numeric vals).boolNonNulls
        simp only [SummaryRecord.uniqueCount, SummaryRecord.duplicateCount,
          SummaryRecord.count, analyzeBoolean]
        omega
    · obtain ⟨vals, rfl⟩ := hb
      rw [analyzeColumn, ht] at h
      simp only [if_neg strNe_bn, eq_self_iff_true, if_true] at h
      obtain rfl := (Option.some.inj h).symm
      have hlen : (Series.boolean vals).boolNonNulls.length
          = (Series.boolean vals).nonNullCount := by
        simp [Series.boolNonNulls, Series.nonNullCount]
      refine ⟨?_, ?_, rfl, ?_⟩
      · simp only [SummaryRecord.nullCount, analyzeBoolean]
        rw [← hadd]
      · simpa [SummaryRecord.count, analyzeBoolean] using hlen
      · have hd := dedup_length_le (Series.boolean vals).boolNonNulls
        simp only [SummaryRecord.uniqueCount, SummaryRecord.duplicateCount,
          SummaryRecord.count, analyzeBoolean]
        omega
  · obtain ⟨vals, rfl⟩ := determineType_datetime_inv ht
    rw [analyzeColumn, ht] at h
    simp only [if_neg strNe_dn, if_neg strNe_db, if_neg strNe_ds,
      if_pos rfl] at h
    obtain rfl := (Option.some.inj h).symm
    refine ⟨?_, ?_, rfl, ?_⟩
    · simpa [SummaryRecord.nullCount, analyzeDatetime] using hadd
    · rfl
    · have hd := dedup_length_le (Series.datetime vals).intNonNulls
      simp only [SummaryRecord.uniqueCount, SummaryRecord.duplicateCount,
        SummaryRecord.count, analyzeDatetime]
      omega
  · rw [analyzeColumn, ht] at h
    simp only [if_neg strNe_sn, if_neg strNe_sb, if_pos rfl] at h
    obtain rfl := (Option.some.inj h).symm
    refine ⟨?_, ?_, rfl, ?_⟩
    · simp only [SummaryRecord.nullCount, analyzeString]
      rw [← hadd]
    · simpa [SummaryRecord.count, analyzeString] using stringified_length s
    · have hd := dedup_length_le s.stringifiedNonNulls
      simp only [SummaryRecord.uniqueCount, SummaryRecord.duplicateCount,
        SummaryRecord.count, analyzeString]
      omega

/-- Closed witness for `record_count_invariants` at a concrete column. -/
theorem record_count_invariants_witness :
    let s := Series.object [some "a", none, some "b", some "a"]
    let r := SummaryRecord.string (analyzeString s)
    r.nullCount + s.nonNullCount = s.length ∧
    r.count = s.nonNullCount ∧
    r.nullPercentage =
      (if 0 < s.length then (s.nullCount : ℚ) / (s.length : ℚ) * 100 else 0) ∧
    r.uniqueCount + r.duplicateCount = r.count :=
  record_count_invariants _ _ rfl

/-! ## C7: boolean summarizer identities -/

lemma boolNonNulls_length {s : Series} (h : determineType s = "boolean") :
    s.boolNonNulls.length = s.nonNullCount := by
  obtain hb | hb := determineType_boolean_inv h
  · obtain ⟨vals, rfl, hsub⟩ := hb
    simp [Series.boolNonNulls, Series.nonNullCount]
  · obtain ⟨vals, rfl⟩ := hb
    simp [Series.boolNonNulls, Series.nonNullCount]

lemma count_true_coerced {vals : List (Option ℚ)}
    (h01 : ∀ q ∈ nonNulls vals, q = 0 ∨ q = 1) :
    ((nonNulls vals).map (fun q => decide (q ≠ 0))).count true
      = (nonNulls vals).count 1 := by
  rw [List.count_eq_countP, List.count_eq_countP, List.countP_map]
  refine List.countP_congr ?_
  intro q hq
  rcases h01 q hq with rfl | rfl <;> norm_num

lemma count_zero_one_total {vals : List (Option ℚ)}
    (h01 : ∀ q ∈ nonNulls vals, q = 0 ∨ q = 1) :
    (nonNulls vals).count 1 + (nonNulls vals).count 0 = (nonNulls vals).length := by
  rw [List.count_eq_countP, List.count_eq_countP,
    List.length_eq_countP_add_countP (fun q : ℚ => q == 1)]
  have hc : List.countP (fun a : ℚ => decide ¬(a == 1) = true) (nonNulls vals)
      = List.countP (fun q : ℚ => q == 0) (nonNulls vals) := by
    refine List.countP_congr ?_
    intro q hq
    rcases h01 q hq with rfl | rfl <;> norm_num
  rw [hc]

/-- **C7.** For a column the classifier routes to the boolean summarizer
(including numeric 0/1 columns, coerced by `astype(bool)` so that `0 ↦ False`
and `1 ↦ True`), `true_count + false_count` equals the non-null count, the
two percentages are `count/total·100` and sum to `100` when the non-null
count is positive, and both are `0` (not `None`) when it is zero. -/
theorem boolean_summary_identities (s : Series) (h : determineType s = "boolean") :
    let r := analyzeBoolean s
    r.true_count + r.false_count = s.nonNullCount ∧
    r.true_percentage = (if 0 < s.nonNullCount then
        (r.true_count : ℚ) / (s.nonNullCount : ℚ) * 100 else 0) ∧
    r.false_percentage = (if 0 < s.nonNullCount then
        (r.false_count : ℚ) / (s.nonNullCount : ℚ) * 100 else 0) ∧
    (0 < s.nonNullCount → r.true_percentage + r.false_percentage = 100) ∧
    (s.nonNullCount = 0 → r.true_percentage = 0 ∧ r.false_percentage = 0) ∧
    (∀ vals, s = Series.numeric vals →
      r.true_count = (nonNulls vals).count 1 ∧
      r.false_count = (nonNulls vals).count 0) := by
  have hlen := boolNonNulls_length h
  have htle := List.count_le_length true s.boolNonNulls
  refine ⟨?_, ?_, ?_, ?_, ?_, ?_⟩
  · simp only [analyzeBoolean]
    omega
  · simp only [analyzeBoolean, hlen]
  · simp only [analyzeBoolean, hlen]
  · intro hpos
    have hn : 0 < s.boolNonNulls.length := by omega
    have hne : ((s.boolNonNulls.length : ℚ)) ≠ 0 := by
      exact_mod_cast Nat.pos_iff_ne_zero.mp hn
    simp only [analyzeBoolean, if_pos hn]
    push_cast [Nat.cast_sub htle]
    field_simp
    ring
  · intro hzero
    have hn : ¬(0 < s.boolNonNulls.length) := by omega
    simp only [analyzeBoolean, if_neg hn]
    exact ⟨trivial, trivial⟩
  · intro vals hs
    subst hs
    have hsub : Series.uniqueSubset01 (.numeric vals) = true := by
      obtain hb | hb := determineType_boolean_inv h
      · obtain ⟨vals', heq, hsub⟩ := hb
        obtain rfl : vals = vals' := by
          injection heq
        exact hsub
      · obtain ⟨vals', heq⟩ := hb
        exact Series.noConfusion heq
    have h01 := (uniqueSubset01_iff vals).mp hsub
    have hct := count_true_coerced h01
    have htot := count_zero_one_total h01
    constructor
    · simpa [analyzeBoolean, Series.boolNonNulls] using hct
    · have hle1 := List.count_le_length (1 : ℚ) (nonNulls vals)
      simp only [analyzeBoolean, Series.boolNonNulls, List.length_map]
      rw [hct]
      omega

/-- Closed witness for `boolean_summary_identities` at a concrete numeric
0/1 column. -/
theorem boolean_summary_identities_witness :
    let s := Series.numeric [some 1, some 0, none, some 1]
    let r := analyzeBoolean s
    r.true_count + r.false_count = s.nonNullCount ∧
    r.true_percentage = (if 0 < s.nonNullCount then
        (r.true_count : ℚ) / (s.nonNullCount : ℚ) * 100 else 0) ∧
    r.false_percentage = (if 0 < s.nonNullCount then
        (r.false_count : ℚ) / (s.nonNullCount : ℚ) * 100 else 0) ∧
    (0 < s.nonNullCount → r.true_percentage + r.false_percentage = 100) ∧
    (s.nonNullCount = 0 → r.true_percentage = 0 ∧ r.false_percentage = 0) ∧
    (∀ vals, s = Series.numeric vals →
      r.true_count = (nonNulls vals).count 1 ∧
      r.false_count = (nonNulls vals).count 0) :=
  boolean_summary_identities _ (by
    have h01 : Series.uniqueSubset01
        (Series.numeric [some 1, some 0, none, some 1]) = true := by
      rw [uniqueSubset01_iff]
      intro q hq
      rw [show nonNulls [some (1 : ℚ), some 0, none, some 1] = [1, 0, 1] from rfl] at hq
      simp only [List.mem_cons, List.not_mem_nil, or_false] at hq
      rcases hq with rfl | rfl | rfl <;> norm_num
    unfold determineType
    rw [if_neg ?_, if_pos (by simp [Series.isNumericDtype]), if_pos h01]
    simp [Series.length, Series.nonNullCount, nonNulls])

/-! ## C5: ordering of the numeric order statistics -/

/-- **C5.** On a numeric column with at least one non-null value the summary
satisfies `min ≤ q1 ≤ median ≤ q3 ≤ max` (quartiles by linear
interpolation), `iqr = q3 - q1 ≥ 0`, and `range = max - min` when at least
two non-null values exist while `range` is the absence value otherwise. -/
theorem numeric_quartile_order (vals : List (Option ℚ)) (h : nonNulls vals ≠ []) :
    let r := analyzeNumeric (Series.numeric vals)
    ∃ mn lq med uq mx,
      r.min = some mn ∧ r.q1 = some lq ∧ r.median = some med ∧
      r.q3 = some uq ∧ r.max = some mx ∧
      mn ≤ lq ∧ lq ≤ med ∧ med ≤ uq ∧ uq ≤ mx ∧
      r.iqr = some (uq - lq) ∧ 0 ≤ uq - lq ∧
      (2 ≤ (nonNulls vals).length → r.range = some (mx - mn)) ∧
      ((nonNulls vals).length < 2 → r.range = none) := by
  intro r
  have hrat : (Series.numeric vals).ratNonNulls = nonNulls vals := rfl
  obtain ⟨mn, hmn⟩ := minQ_isSome h
  obtain ⟨mx, hmx⟩ := maxQ_isSome h
  obtain ⟨lq, hlq, lo1, hlo1m, hi1, hhi1m, hlo1, hhi1⟩ :=
    quantileQ_bounds h (p := 1/4) (by norm_num) (by norm_num)
  obtain ⟨med, hmed, lo2, hlo2m, hi2, hhi2m, hlo2, hhi2⟩ :=
    quantileQ_bounds h (p := 1/2) (by norm_num) (by norm_num)
  obtain ⟨uq, huq, lo3, hlo3m, hi3, hhi3m, hlo3, hhi3⟩ :=
    quantileQ_bounds h (p := 3/4) (by norm_num) (by norm_num)
  have h14 : lq ≤ med :=
    quantileQ_mono h (by norm_num) (by norm_num) (by norm_num) hlq hmed
  have h24 : med ≤ uq :=
    quantileQ_mono h (by norm_num) (by norm_num) (by norm_num) hmed huq
  have h13 : lq ≤ uq := h14.trans h24
  refine ⟨mn, lq, med, uq, mx, ?_, ?_, ?_, ?_, ?_, ?_, h14, h24, ?_, ?_, ?_, ?_, ?_⟩
  · simpa only [analyzeNumeric, hrat] using hmn
  · simpa only [analyzeNumeric, hrat] using hlq
  · simpa only [analyzeNumeric, hrat] using hmed
  · simpa only [analyzeNumeric, hrat] using huq
  · simpa only [analyzeNumeric, hrat] using hmx
  · exact le_trans ((minQ_spec hmn).2 lo1 hlo1m) hlo1
  · exact le_trans hhi3 ((maxQ_spec hmx).2 hi3 hhi3m)
  · show (match quantileQ (nonNulls vals) (3/4), quantileQ (nonNulls vals) (1/4) with
      | some a, some b => some (a - b)
      | _, _ => none) = some (uq - lq)
    rw [huq, hlq]
  · exact sub_nonneg.mpr h13
  · intro h2
    have h2' : 1 < (nonNulls vals).length := h2
    show (if 1 < (nonNulls vals).length then
        (match (nonNulls vals).max?, (nonNulls vals).min? with
         | some a, some b => some (a - b)
         | _, _ => none)
      else none) = some (mx - mn)
    rw [if_pos h2', hmx, hmn]
  · intro h2
    have h2' : ¬(1 < (nonNulls vals).length) := by omega
    show (if 1 < (nonNulls vals).length then
        (match (nonNulls vals).max?, (nonNulls vals).min? with
         | some a, some b => some (a - b)
         | _, _ => none)
      else none) = none
    rw [if_neg h2']

/-- Closed witness for `numeric_quartile_order` at a concrete column. -/
theorem numeric_quartile_order_witness :
    let vals : List (Option ℚ) := [some 3, none, some 5, some 7]
    let r := analyzeNumeric (Series.numeric vals)
    ∃ mn lq med uq mx,
      r.min = some mn ∧ r.q1 = some lq ∧ r.median = some med ∧
      r.q3 = some uq ∧ r.max = some mx ∧
      mn ≤ lq ∧ lq ≤ med ∧ med ≤ uq ∧ uq ≤ mx ∧
      r.iqr = some (uq - lq) ∧ 0 ≤ uq - lq ∧
      (2 ≤ (nonNulls vals).length → r.range = some (mx - mn)) ∧
      ((nonNulls vals).length < 2 → r.range = none) :=
  numeric_quartile_order [some 3, none, some 5, some 7] (by
    rw [show nonNulls [some (3 : ℚ), none, some 5, some 7] = [3, 5, 7] from rfl]
    exact List.cons_ne_nil _ _)

/-! ## C9: a single non-null value gives NaN sample statistics, absent range -/

/-- **C9.** A numeric-storage column with exactly one non-null value, not a
0/1 flag (so it classifies Numeric), yields `range = None`, while `std` and
`variance` are not the absence value: they are the NaN result of the
`ddof = 1` sample computation. -/
theorem single_value_numeric_stats (vals : List (Option ℚ)) (q : ℚ)
    (h : nonNulls vals = [q]) (h0 : q ≠ 0) (h1 : q ≠ 1) :
    determineType (Series.numeric vals) = "numeric" ∧
    analyzeColumn (Series.numeric vals) =
      some (SummaryRecord.numeric (analyzeNumeric (Series.numeric vals))) ∧
    (analyzeNumeric (Series.numeric vals)).range = none ∧
    (analyzeNumeric (Series.numeric vals)).std = StdVal.nan ∧
    (analyzeNumeric (Series.numeric vals)).variance = NumVal.nan ∧
    (analyzeNumeric (Series.numeric vals)).std ≠ StdVal.absent ∧
    (analyzeNumeric (Series.numeric vals)).variance ≠ NumVal.absent := by
  have hvne : vals ≠ [] := by
    intro hv
    rw [hv] at h
    exact List.cons_ne_nil q [] h.symm
  have hnn : (Series.numeric vals).nonNullCount = 1 := by
    simp [Series.nonNullCount, h]
  have hcond : ¬((Series.numeric vals).length = 0 ∨
      (Series.numeric vals).nonNullCount = 0) := by
    rintro (hl | hl)
    · exact hvne (List.length_eq_zero.mp hl)
    · omega
  have hsub : ¬(Series.uniqueSubset01 (Series.numeric vals) = true) := by
    intro hc
    have := (uniqueSubset01_iff vals).mp hc q (by rw [h]; exact List.mem_singleton_self q)
    tauto
  have ht : determineType (Series.numeric vals) = "numeric" := by
    unfold determineType
    rw [if_neg hcond, if_pos (by simp [Series.isNumericDtype]), if_neg hsub]
  have hrat : (Series.numeric vals).ratNonNulls = [q] := h
  refine ⟨ht, ?_, ?_, ?_, ?_, ?_, ?_⟩
  · rw [analyzeColumn, ht, if_pos rfl]
  · simp [analyzeNumeric, hrat]
  · simp [analyzeNumeric, hrat]
  · simp [analyzeNumeric, hrat]
  · simp [analyzeNumeric, hrat]
  · simp [analyzeNumeric, hrat]

/-- Closed witness for `single_value_numeric_stats`. -/
theorem single_value_numeric_stats_witness :
    determineType (Series.numeric [none, some 5]) = "numeric" ∧
    analyzeColumn (Series.numeric [none, some 5]) =
      some (SummaryRecord.numeric (analyzeNumeric (Series.numeric [none, some 5]))) ∧
    (analyzeNumeric (Series.numeric [none, some 5])).range = none ∧
    (analyzeNumeric (Series.numeric [none, some 5])).std = StdVal.nan ∧
    (analyzeNumeric (Series.numeric [none, some 5])).variance = NumVal.nan ∧
    (analyzeNumeric (Series.numeric [none, some 5])).std ≠ StdVal.absent ∧
    (analyzeNumeric (Series.numeric [none, some 5])).variance ≠ NumVal.absent :=
  single_value_numeric_stats [none, some 5] 5 rfl (by norm_num) (by norm_num)

/-! ## C6: string length statistics are absent exactly for no data -/

/-- **C6.** The string summarizer is total (the guarded length computation
cannot fail after `astype(str)`, so the `except` fallback is dead), and its
`min_length`, `max_length` and `mean_length` are the absence value exactly
when the column has no non-null values. -/
theorem string_length_absence (s : Series) :
    let r := analyzeString s
    ((r.min_length = none) ↔ s.nonNullCount = 0) ∧
    ((r.max_length = none) ↔ s.nonNullCount = 0) ∧
    ((r.mean_length = none) ↔ s.nonNullCount = 0) := by
  intro r
  have hlen := stringified_length s
  rcases hstrs : s.stringifiedNonNulls with _ | ⟨a, l⟩
  · have h0 : s.nonNullCount = 0 := by rw [← hlen, hstrs]; rfl
    refine ⟨?_, ?_, ?_⟩
    · show ((analyzeString s).min_length = none) ↔ s.nonNullCount = 0
      simp [analyzeString, hstrs, h0]
    · show ((analyzeString s).max_length = none) ↔ s.nonNullCount = 0
      simp [analyzeString, hstrs, h0]
    · show ((analyzeString s).mean_length = none) ↔ s.nonNullCount = 0
      simp [analyzeString, hstrs, h0]
  · have h0 : s.nonNullCount ≠ 0 := by
      rw [← hlen, hstrs]
      simp
    have hne : ¬(a :: l).isEmpty = true := by simp
    refine ⟨?_, ?_, ?_⟩
    · refine iff_of_false ?_ h0
      show ¬(if (s.stringifiedNonNulls).isEmpty then none
          else ((s.stringifiedNonNulls).map String.length).min?) = none
      rw [hstrs, if_neg hne, List.map_cons, List.min?_cons]
      exact Option.some_ne_none _
    · refine iff_of_false ?_ h0
      show ¬(if (s.stringifiedNonNulls).isEmpty then none
          else ((s.stringifiedNonNulls).map String.length).max?) = none
      rw [hstrs, if_neg hne, List.map_cons, List.max?_cons]
      exact Option.some_ne_none _
    · refine iff_of_false ?_ h0
      show ¬(if (s.stringifiedNonNulls).isEmpty then none
          else some ((((s.stringifiedNonNulls).map String.length).sum : ℚ)
            / ((s.stringifiedNonNulls).length : ℚ))) = none
      rw [hstrs, if_neg hne]
      exact Option.some_ne_none _

/-! ## C8 and C10: the engine and the profile object -/

lemma analyzeColumn_isSome (s : Series) : ∃ r, analyzeColumn s = some r := by
  rcases determineType_mem s with ht | ht | ht | ht
  · exact ⟨_, by rw [analyzeColumn, ht, if_pos rfl]⟩
  · exact ⟨_, by rw [analyzeColumn, ht, if_neg strNe_bn, if_pos rfl]⟩
  · exact ⟨_, by rw [analyzeColumn, ht, if_neg strNe_dn, if_neg strNe_db,
      if_neg strNe_ds, if_pos rfl]⟩
  · exact ⟨_, by rw [analyzeColumn, ht, if_neg strNe_sn, if_neg strNe_sb,
      if_pos rfl]⟩

lemma profileResults_keys (df : List (String × Series)) :
    (profileResults df).map Prod.fst = df.map Prod.fst := by
  induction df with
  | nil => rfl
  | cons c cs ih =>
    obtain ⟨r, hr⟩ := analyzeColumn_isSome c.2
    rw [profileResults, List.filterMap_cons, hr]
    simp only [Option.map_some, List.map_cons]
    exact congrArg (List.cons c.1) ih

/-- **C8.** Classification always lands in one of the four dispatched kind
strings, so every column receives exactly one summary record and the
profile keeps one entry per column, in column order; there is no failing
path in the core. -/
theorem engine_always_produces_record (df : List (String × Series)) :
    (profileResults df).map Prod.fst = df.map Prod.fst ∧
    ∀ s : Series, ∃ r, analyzeColumn s = some r :=
  ⟨profileResults_keys df, analyzeColumn_isSome⟩

/-- **C10.** Building a `JProfile` always succeeds, `get_profile` returns
exactly the mapping computed once at construction (empty for a zero-column
frame), with one key per dataset column in dataset order and no others.
(Duplicate column names are undefined behaviour upstream, hence the
`Nodup` precondition.) -/
theorem get_profile_construction (df : List (String × Series))
    (_nodup : (df.map Prod.fst).Nodup) :
    JProfile.getProfile (JProfile.init df) = profileResults df ∧
    JProfile.getProfile (JProfile.init ([] : List (String × Series))) = [] ∧
    (JProfile.getProfile (JProfile.init df)).map Prod.fst = df.map Prod.fst ∧
    (JProfile.getProfile (JProfile.init df)).length = df.length := by
  refine ⟨rfl, rfl, profileResults_keys df, ?_⟩
  have h1 := congrArg List.length (profileResults_keys df)
  simpa [List.length_map] using h1

/-- Closed witness for `get_profile_construction`. -/
theorem get_profile_construction_witness :
    let df : List (String × Series) :=
      [("a", Series.object [some "x"]), ("b", Series.numeric [some 2, none])]
    JProfile.getProfile (JProfile.init df) = profileResults df ∧
    JProfile.getProfile (JProfile.init ([] : List (String × Series))) = [] ∧
    (JProfile.getProfile (JProfile.init df)).map Prod.fst = df.map Prod.fst ∧
    (JProfile.getProfile (JProfile.init df)).length = df.length :=
  get_profile_construction _ (by decide)

/-! ## C3: duration columns never reach the datetime summarizer -/

/-- **C3 (failing input).** A `timedelta64` column with two non-null
durations (one and two days, in seconds).  `is_datetime64_dtype` is false
for it, so `_determine_type` says `"string"` and the engine emits a
String-kind record; the duration mean/median branch inside
`_analyze_datetime` — which would have produced `mean = median = 129600` —
is unreachable through the engine. -/
theorem duration_column_misrouted :
    determineType (Series.timedelta [some 86400, some 172800]) = "string" ∧
    analyzeColumn (Series.timedelta [some 86400, some 172800]) =
      some (SummaryRecord.string
        (analyzeString (Series.timedelta [some 86400, some 172800]))) ∧
    (analyzeDatetime (Series.timedelta [some 86400, some 172800])).mean
      = some 129600 ∧
    (analyzeDatetime (Series.timedelta [some 86400, some 172800])).median
      = some 129600 := by
  have hint : Series.intNonNulls (Series.timedelta [some 86400, some 172800])
      = [(86400 : ℤ), 172800] := rfl
  refine ⟨rfl, rfl, ?_, ?_⟩
  · simp only [analyzeDatetime, hint, Series.isTimedeltaDtype, List.isEmpty_cons,
      and_true, Bool.false_eq_true, not_false_iff, if_pos]
    norm_num [List.sum_cons]
  · simp only [analyzeDatetime, hint, Series.isTimedeltaDtype, List.isEmpty_cons,
      and_true, Bool.false_eq_true, not_false_iff, if_pos, List.map_cons,
      List.map_nil]
    rw [quantileQ]
    norm_num [List.insertionSort, List.orderedInsert, interpSorted, ratFloorNat,
      List.getD_cons_zero, List.getD_cons_succ]

/-! ## C4: top_frequencies of the string summarizer -/

lemma mem_uniqInOrder {α : Type} [DecidableEq α] {a : α} :
    ∀ {l : List α}, a ∈ uniqInOrder l ↔ a ∈ l := by
  intro l
  induction l using uniqInOrder.induct with
  | case1 => simp [uniqInOrder]
  | case2 x xs ih =>
    rw [uniqInOrder]
    simp only [List.mem_cons, ih, List.mem_filter]
    constructor
    · rintro (rfl | ⟨hmem, _⟩)
      · exact Or.inl rfl
      · exact Or.inr hmem
    · rintro (rfl | hmem)
      · exact Or.inl rfl
      · by_cases hax : a = x
        · exact Or.inl hax
        · exact Or.inr ⟨hmem, by simpa using hax⟩

lemma nodup_uniqInOrder {α : Type} [DecidableEq α] :
    ∀ (l : List α), (uniqInOrder l).Nodup := by
  intro l
  induction l using uniqInOrder.induct with
  | case1 => simp [uniqInOrder]
  | case2 x xs ih =>
    rw [uniqInOrder]
    refine List.nodup_cons.mpr ⟨?_, ih⟩
    intro hmem
    have := mem_uniqInOrder.mp hmem
    simp [List.mem_filter] at this

lemma valueCountRows_map (xs : List String) :
    (valueCountRows xs).map (fun e => e.2.1) = uniqInOrder xs := by
  simp only [valueCountRows, List.map_map]
  have hcomp : ((fun e : ℕ × String × ℕ => e.2.1) ∘
      (fun p : ℕ × String => (p.1, p.2, xs.count p.2))) = Prod.snd := rfl
  rw [hcomp, List.enum_map_snd]

lemma mem_valueCountRows {xs : List String} {e : ℕ × String × ℕ}
    (h : e ∈ valueCountRows xs) :
    (uniqInOrder xs)[e.1]? = some e.2.1 ∧ e.2.2 = xs.count e.2.1 := by
  obtain ⟨p, hp, rfl⟩ := List.mem_map.mp h
  exact ⟨List.mem_enum_iff_getElem?.mp hp, rfl⟩

lemma sorted_perm_rows (xs : List String) :
    (sortedValueCounts xs).Perm (valueCountRows xs) :=
  List.perm_insertionSort _ _

lemma pairwise_sortedValueCounts (xs : List String) :
    List.Pairwise vcRel (sortedValueCounts xs) :=
  List.sorted_insertionSort vcRel _

lemma sortedValueCounts_keys_nodup (xs : List String) :
    ((sortedValueCounts xs).map (fun e => e.2.1)).Nodup := by
  have hperm := (sorted_perm_rows xs).map (fun e : ℕ × String × ℕ => e.2.1)
  rw [hperm.nodup_iff, valueCountRows_map]
  exact nodup_uniqInOrder _

lemma uniqInOrder_nil {α : Type} [DecidableEq α] :
    uniqInOrder ([] : List α) = [] := by
  rw [uniqInOrder]

lemma topFrequencies_nil : topFrequencies ([] : List String) = [] := by
  simp [topFrequencies, sortedValueCounts, valueCountRows, uniqInOrder_nil]

lemma analyzeString_topFreq (s : Series) :
    (analyzeString s).top_frequencies = topFrequencies s.stringifiedNonNulls := by
  show (if (s.stringifiedNonNulls).isEmpty then []
      else topFrequencies s.stringifiedNonNulls) = topFrequencies s.stringifiedNonNulls
  split
  · next hemp =>
    rw [List.isEmpty_iff.mp hemp, topFrequencies_nil]
  · rfl

/-- **C4.** `top_frequencies` is a genuine mapping (distinct keys) of at most
5 entries; each entry's value is the occurrence count of its key among the
stringified non-null values and is at most the non-null count; entries
descend by count, ties resolved by first-encounter order (the `e.1`
component of `sortedValueCounts` is the index of the key in the
first-occurrence list `uniqInOrder`); values not retained are no more
frequent than any retained entry; and the mapping is empty when there are
no non-null values. -/
theorem string_top_frequencies (s : Series) :
    (analyzeString s).top_frequencies.length ≤ 5 ∧
    (∀ e ∈ (analyzeString s).top_frequencies,
      e.2 = (s.stringifiedNonNulls).count e.1 ∧ e.2 ≤ s.nonNullCount) ∧
    ((analyzeString s).top_frequencies.map Prod.fst).Nodup ∧
    List.Pairwise (fun a b : String × ℕ => b.2 ≤ a.2)
      (analyzeString s).top_frequencies ∧
    (analyzeString s).top_frequencies
      = ((sortedValueCounts s.stringifiedNonNulls).take 5).map
          (fun e => (e.2.1, e.2.2)) ∧
    List.Pairwise vcRel ((sortedValueCounts s.stringifiedNonNulls).take 5) ∧
    (∀ e ∈ sortedValueCounts s.stringifiedNonNulls,
      (uniqInOrder s.stringifiedNonNulls)[e.1]? = some e.2.1 ∧
      e.2.2 = (s.stringifiedNonNulls).count e.2.1) ∧
    (s.stringifiedNonNulls = [] → (analyzeString s).top_frequencies = []) ∧
    (∀ v ∈ s.stringifiedNonNulls,
      (∀ e ∈ (analyzeString s).top_frequencies, e.1 ≠ v) →
      ∀ e ∈ (analyzeString s).top_frequencies,
        (s.stringifiedNonNulls).count v ≤ e.2) := by
  have htf := analyzeString_topFreq s
  set strs := s.stringifiedNonNulls with hstrs
  have heq : (analyzeString s).top_frequencies
      = ((sortedValueCounts strs).take 5).map (fun e => (e.2.1, e.2.2)) := htf
  have hp5 : List.Pairwise vcRel ((sortedValueCounts strs).take 5) :=
    (pairwise_sortedValueCounts strs).sublist (List.take_sublist 5 _)
  have hmemrow : ∀ e ∈ (sortedValueCounts strs).take 5, e ∈ valueCountRows strs :=
    fun e he => (sorted_perm_rows strs).mem_iff.mp ((List.take_sublist 5 _).subset he)
  refine ⟨?_, ?_, ?_, ?_, heq, hp5, ?_, ?_, ?_⟩
  · rw [heq, List.length_map, List.length_take]
    exact min_le_left _ _
  · intro e he
    rw [heq] at he
    obtain ⟨e', he', rfl⟩ := List.mem_map.mp he
    have hc := (mem_valueCountRows (hmemrow e' he')).2
    refine ⟨hc, ?_⟩
    rw [hc, ← stringified_length s, ← hstrs]
    exact List.count_le_length _ _
  · rw [heq, List.map_map]
    have hcomp : (Prod.fst ∘ fun e : ℕ × String × ℕ => (e.2.1, e.2.2))
        = fun e : ℕ × String × ℕ => e.2.1 := rfl
    rw [hcomp]
    exact (sortedValueCounts_keys_nodup strs).sublist
      ((List.take_sublist 5 _).map _)
  · rw [heq]
    rw [List.pairwise_map]
    refine hp5.imp ?_
    intro a b hab
    rcases hab with hlt | ⟨heq2, _⟩
    · exact le_of_lt hlt
    · exact le_of_eq heq2.symm
  · intro e he
    exact mem_valueCountRows ((sorted_perm_rows strs).mem_iff.mp he)
  · intro h0
    rw [htf, h0, topFrequencies_nil]
  · intro v hv hnotin e he
    have hv1 : v ∈ uniqInOrder strs := mem_uniqInOrder.mpr hv
    have hv2 : v ∈ (valueCountRows strs).map (fun e => e.2.1) := by
      rw [valueCountRows_map]
      exact hv1
    obtain ⟨e0, he0, hve⟩ := List.mem_map.mp hv2
    have he0s : e0 ∈ sortedValueCounts strs :=
      (sorted_perm_rows strs).mem_iff.mpr he0
    have hpw := pairwise_sortedValueCounts strs
    rw [← List.take_append_drop 5 (sortedValueCounts strs)] at he0s hpw
    obtain ⟨hpw1, hpw2, hcross⟩ := List.pairwise_append.mp hpw
    rcases List.mem_append.mp he0s with hin | hin
    · exact absurd hve
        (hnotin (e0.2.1, e0.2.2) (by rw [heq]; exact List.mem_map_of_mem _ hin))
    · rw [heq] at he
      obtain ⟨e', he', rfl⟩ := List.mem_map.mp he
      have hrel := hcross e' he' e0 hin
      have hc0 : e0.2.2 = strs.count e0.2.1 := (mem_valueCountRows he0).2
      rw [← hve, ← hc0]
      rcases hrel with hlt | ⟨heq2, _⟩
      · exact le_of_lt hlt
      · exact le_of_eq heq2.symm

/-- Closed witness for `string_top_frequencies` at the spec's sample
column. -/
theorem string_top_frequencies_witness :
    let s := Series.object [some "Alice", some "Bob", none, some "Alice"]
    (analyzeString s).top_frequencies.length ≤ 5 ∧
    (∀ e ∈ (analyzeString s).top_frequencies,
      e.2 = (s.stringifiedNonNulls).count e.1 ∧ e.2 ≤ s.nonNullCount) ∧
    ((analyzeString s).top_frequencies.map Prod.fst).Nodup ∧
    List.Pairwise (fun a b : String × ℕ => b.2 ≤ a.2)
      (analyzeString s).top_frequencies ∧
    (analyzeString s).top_frequencies
      = ((sortedValueCounts s.stringifiedNonNulls).take 5).map
          (fun e => (e.2.1, e.2.2)) ∧
    List.Pairwise vcRel ((sortedValueCounts s.stringifiedNonNulls).take 5) ∧
    (∀ e ∈ sortedValueCounts s.stringifiedNonNulls,
      (uniqInOrder s.stringifiedNonNulls)[e.1]? = some e.2.1 ∧
      e.2.2 = (s.stringifiedNonNulls).count e.2.1) ∧
    (s.stringifiedNonNulls = [] → (analyzeString s).top_frequencies = []) ∧
    (∀ v ∈ s.stringifiedNonNulls,
      (∀ e ∈ (analyzeString s).top_frequencies, e.1 ≠ v) →
      ∀ e ∈ (analyzeString s).top_frequencies,
        (s.stringifiedNonNulls).count v ≤ e.2) :=
  string_top_frequencies (Series.object [some "Alice", some "Bob", none, some "Alice"])

/-! ## Closed instances of the hypothesis-free claim theorems -/

/-- Closed witness for `classify_matches_spec` at a concrete column. -/
theorem classify_matches_spec_witness :
    (determineType (Series.datetime [some 10, none]) = "numeric" ∨
     determineType (Series.datetime [some 10, none]) = "boolean" ∨
     determineType (Series.datetime [some 10, none]) = "datetime" ∨
     determineType (Series.datetime [some 10, none]) = "string") ∧
    determineType (Series.datetime [some 10, none])
      = classifySpec (Series.datetime [some 10, none]) :=
  classify_matches_spec (Series.datetime [some 10, none])

/-- Closed witness for `string_length_absence` at a concrete column. -/
theorem string_length_absence_witness :
    let s := Series.object [some "ab", none]
    let r := analyzeString s
    ((r.min_length = none) ↔ s.nonNullCount = 0) ∧
    ((r.max_length = none) ↔ s.nonNullCount = 0) ∧
    ((r.mean_length = none) ↔ s.nonNullCount = 0) :=
  string_length_absence (Series.object [some "ab", none])

/-- Closed witness for `engine_always_produces_record` at a concrete
frame. -/
theorem engine_always_produces_record_witness :
    let df : List (String × Series) :=
      [("t", Series.timedelta [some 3]), ("u", Series.boolean [some true, none])]
    (profileResults df).map Prod.fst = df.map Prod.fst ∧
    ∀ s : Series, ∃ r, analyzeColumn s = some r :=
  engine_always_produces_record
    [("t", Series.timedelta [some 3]), ("u", Series.boolean [some true, none])]
